import Mathlib

/-!
Shallow embedding of the Go backend of the Thrift compiler
(`src/compiler/cpp/src/generate/t_go_generator.cc`) and proofs about the
claims of its specification.

Identifiers and other emitted strings are modelled as byte strings
(`List Nat` of ASCII codes), matching the C++ `std::string` operations of
the source.  Helper `sLit` turns a Lean string literal into such a byte
string for concrete instances.
-/

/-- Byte code of a character, for building concrete byte strings. -/
def sLit (s : String) : List Nat := s.data.map Char.toNat

/-- Model of C `isupper` on ASCII bytes. -/
def isUpperB (c : Nat) : Bool := 65 ≤ c && c ≤ 90

/-- Model of C `islower` on ASCII bytes. -/
def isLowerB (c : Nat) : Bool := 97 ≤ c && c ≤ 122

/-- Model of C `isalpha` on ASCII bytes. -/
def isAlphaB (c : Nat) : Bool := isUpperB c || isLowerB c

/-- Model of C `toupper` on ASCII bytes. -/
def toUpperB (c : Nat) : Nat := if isLowerB c then c - 32 else c

/-- Model of C `tolower` on ASCII bytes. -/
def toLowerB (c : Nat) : Nat := if isUpperB c then c + 32 else c

/-- Model of `std::transform(value2.begin(), value2.end(), value2.begin(), ::tolower)`
(t_go_generator.cc line 332). -/
def toLowerStr (s : List Nat) : List Nat := s.map toLowerB

/-- Model of `escape_string` from the compiler core (declared outside `src/`).
Modelled from the spec context: it escapes quote/backslash/control characters
in string literals; on the plain identifier characters appearing in every
claim it is the identity, so it is modelled as the identity map. -/
def escapeString (s : List Nat) : List Nat := s

/-- Model of the split of `value` at the last `'.'` (byte 46) performed by
`publicize` (t_go_generator.cc lines 270-274): `rfind('.')`, the prefix keeps
the dot (`substr(0, dot_pos + 1)`), the remainder is the final segment
(`substr(dot_pos + 1)`).  When no dot occurs the prefix is empty. -/
def splitLastDot : List Nat → List Nat × List Nat
  | [] => ([], [])
  | c :: t =>
    if 46 ∈ t then
      let p := splitLastDot t
      (c :: p.1, p.2)
    else if c = 46 then ([46], t)
    else ([], c :: t)

/-- Model of `if (!isupper(value2[0])) value2[0] = toupper(value2[0]);`
(t_go_generator.cc lines 276-278).  The C++ indexes position 0 of the final
segment; an empty segment (a name ending in a dot) is undefined behaviour in
the source and is modelled as the empty result. -/
def capitalizeFirst : List Nat → List Nat
  | [] => []
  | c :: t => (if isUpperB c then c else toUpperB c) :: t

/-- Model of `if (!islower(value2[0])) value2[0] = tolower(value2[0]);`
(t_go_generator.cc lines 311-313). -/
def lowercaseFirst : List Nat → List Nat
  | [] => []
  | c :: t => (if isLowerB c then c else toLowerB c) :: t

/-- Model of the in-place rewrite loop shared by `publicize`
(lines 281-285, follower predicate `islower`) and `privatize` (lines 316-320,
follower predicate `isalpha`):

`for (i = 1; i < value2.size() - 1; ++i) if (value2[i] == '_' && p(value2[i+1])) value2.replace(i, 2, 1, toupper(value2[i+1]));`

The loop index only ever grows and the string only ever shrinks, so the
number of remaining iterations is bounded by the current length; the `fuel`
argument is that bound, making the function structurally recursive (the
bridge lemma `replLoop_eq_collapseFrom` shows any fuel of at least
`s.length - i` gives the loop's fixed point). -/
def replLoop (p : Nat → Bool) : Nat → List Nat → Nat → List Nat
  | 0, s, _ => s
  | fuel + 1, s, i =>
    if i + 1 < s.length then
      if s.getD i 0 = 95 ∧ p (s.getD (i + 1) 0) = true then
        replLoop p fuel (s.take i ++ toUpperB (s.getD (i + 1) 0) :: s.drop (i + 2)) (i + 1)
      else replLoop p fuel s (i + 1)
    else s

/-- One functional left-to-right pass over a byte string replacing each
underscore (byte 95) that is followed by a byte satisfying `p` with the
uppercased follower; the replacement is consumed, so the pass is not
recursive on its own result.  This is the clean form of `replLoop`
(bridge lemma `replLoop_eq_collapseFrom`). -/
def collapseFrom (p : Nat → Bool) : List Nat → List Nat
  | [] => []
  | [c] => [c]
  | c1 :: c2 :: rest =>
    if c1 = 95 ∧ p c2 = true then toUpperB c2 :: collapseFrom p rest
    else c1 :: collapseFrom p (c2 :: rest)

/-- Model of `t_go_generator::publicize` (t_go_generator.cc lines 262-288):
empty names are returned unchanged; otherwise the name is split at the last
dot, the first byte of the final segment is uppercased, the rewrite loop runs
from index 1 with follower predicate `islower`, and the unchanged prefix is
prepended. -/
def publicize (value : List Nat) : List Nat :=
  if value = [] then value
  else
    let p := splitLastDot value
    let seg := capitalizeFirst p.2
    p.1 ++ replLoop isLowerB seg.length seg 1

/-- Model of `t_go_generator::privatize` (t_go_generator.cc lines 303-323):
empty names are returned unchanged; otherwise the first byte of the whole
name is lowercased (there is no dot split) and the rewrite loop runs from
index 1 with follower predicate `isalpha`. -/
def privatize (value : List Nat) : List Nat :=
  if value = [] then value
  else
    let seg := lowercaseFirst value
    replLoop isAlphaB seg.length seg 1

/-- Suffix appended to a reserved word by `variable_name_to_go_name`
(t_go_generator.cc line 443), the bytes of `"_a1"`. -/
def goNameSuffix : List Nat := [95, 97, 49]

example : goNameSuffix = sLit "_a1" := by decide

/-- The reserved words special-cased one by one in `variable_name_to_go_name`
(t_go_generator.cc lines 334-441), in source order, as byte strings (see the
`example` below for their readable form). -/
def goReservedWords : List (List Nat) :=
  [[98, 114, 101, 97, 107],
   [99, 97, 115, 101],
   [99, 104, 97, 110],
   [99, 111, 110, 115, 116],
   [99, 111, 110, 116, 105, 110, 117, 101],
   [100, 101, 102, 97, 117, 108, 116],
   [100, 101, 102, 101, 114],
   [101, 108, 115, 101],
   [101, 114, 114, 111, 114],
   [102, 97, 108, 108, 116, 104, 114, 111, 117, 103, 104],
   [102, 111, 114],
   [102, 117, 110, 99],
   [103, 111],
   [103, 111, 116, 111],
   [105, 102],
   [105, 109, 112, 111, 114, 116],
   [105, 110, 116, 101, 114, 102, 97, 99, 101],
   [109, 97, 112],
   [112, 97, 99, 107, 97, 103, 101],
   [114, 97, 110, 103, 101],
   [114, 101, 116, 117, 114, 110],
   [115, 101, 108, 101, 99, 116],
   [115, 116, 114, 117, 99, 116],
   [115, 119, 105, 116, 99, 104],
   [116, 121, 112, 101],
   [118, 97, 114]]

example : goReservedWords =
    [sLit "break", sLit "case", sLit "chan", sLit "const", sLit "continue",
     sLit "default", sLit "defer", sLit "else", sLit "error",
     sLit "fallthrough", sLit "for", sLit "func", sLit "go", sLit "goto",
     sLit "if", sLit "import", sLit "interface", sLit "map", sLit "package",
     sLit "range", sLit "return", sLit "select", sLit "struct", sLit "switch",
     sLit "type", sLit "var"] := by decide

/-- The reserved words tested in the branch of `variable_name_to_go_name`
selected by the switch on the first byte of the name
(t_go_generator.cc lines 334-441).  Each `case` of the C++ switch lists the
lower- and upper-case variant of one letter (b=98/66, c=99/67, d=100/68,
e=101/69, f=102/70, g=103/71, i=105/73, m=109/77, p=112/80, r=114/82,
s=115/83, t=116/84, v=118/86) and compares the lowercased name against that
letter's reserved words; the default branch tests nothing. -/
def letterGroup (c : Nat) : List (List Nat) :=
  if c = 98 ∨ c = 66 then [[98, 114, 101, 97, 107]]
  else if c = 99 ∨ c = 67 then [[99, 97, 115, 101], [99, 104, 97, 110], [99, 111, 110, 115, 116], [99, 111, 110, 116, 105, 110, 117, 101]]
  else if c = 100 ∨ c = 68 then [[100, 101, 102, 97, 117, 108, 116], [100, 101, 102, 101, 114]]
  else if c = 101 ∨ c = 69 then [[101, 108, 115, 101], [101, 114, 114, 111, 114]]
  else if c = 102 ∨ c = 70 then [[102, 97, 108, 108, 116, 104, 114, 111, 117, 103, 104], [102, 111, 114], [102, 117, 110, 99]]
  else if c = 103 ∨ c = 71 then [[103, 111], [103, 111, 116, 111]]
  else if c = 105 ∨ c = 73 then [[105, 102], [105, 109, 112, 111, 114, 116], [105, 110, 116, 101, 114, 102, 97, 99, 101]]
  else if c = 109 ∨ c = 77 then [[109, 97, 112]]
  else if c = 112 ∨ c = 80 then [[112, 97, 99, 107, 97, 103, 101]]
  else if c = 114 ∨ c = 82 then [[114, 97, 110, 103, 101], [114, 101, 116, 117, 114, 110]]
  else if c = 115 ∨ c = 83 then [[115, 101, 108, 101, 99, 116], [115, 116, 114, 117, 99, 116], [115, 119, 105, 116, 99, 104]]
  else if c = 116 ∨ c = 84 then [[116, 121, 112, 101]]
  else if c = 118 ∨ c = 86 then [[118, 97, 114]]
  else []

/-- Model of `t_go_generator::variable_name_to_go_name`
(t_go_generator.cc lines 325-444): the whole name is lowercased into
`value2`, the switch dispatches on the first byte of the original name, the
selected branch returns the original name unchanged unless `value2` equals
one of that letter's reserved words (`letterGroup`), and the shared tail
after the switch returns `value2 + "_a1"`. -/
def variable_name_to_go_name (value : List Nat) : List Nat :=
  match value with
  | [] => []
  | c :: rest =>
    let value2 := toLowerStr (c :: rest)
    if value2 ∈ letterGroup c then value2 ++ goNameSuffix else c :: rest

example : variable_name_to_go_name (sLit "Type") = sLit "type_a1" := by decide
example : variable_name_to_go_name (sLit "args") = sLit "args" := by decide
example : variable_name_to_go_name (sLit "Interface") = sLit "interface_a1" := by decide

/-- A list of length at most one is a fixed point of the rewrite pass. -/
theorem collapseFrom_short (p : Nat → Bool) (l : List Nat) (h : l.length ≤ 1) :
    collapseFrom p l = l := by
  rcases l with _ | ⟨a, _ | ⟨b, t⟩⟩
  · rfl
  · rfl
  · simp at h

/-- Bridge between the index-based C++ rewrite loop and the functional
one-pass rewrite: with enough fuel, running the loop from index `i` keeps
the first `i` bytes and applies the pass to the rest. -/
theorem replLoop_eq_collapseFrom (p : Nat → Bool) :
    ∀ (fuel : Nat) (s : List Nat) (i : Nat), s.length ≤ fuel + i →
      replLoop p fuel s i = s.take i ++ collapseFrom p (s.drop i) := by
  intro fuel
  induction fuel with
  | zero =>
    intro s i h
    simp only [Nat.zero_add] at h
    rw [replLoop, List.drop_eq_nil_of_le h, collapseFrom,
      List.take_of_length_le h, List.append_nil]
  | succ n ih =>
    intro s i h
    rw [replLoop]
    split
    case isTrue hlen =>
      have hi : i < s.length := by omega
      have hi1 : i + 1 < s.length := hlen
      have hgd : s.getD i 0 = s[i] := List.getD_eq_getElem s 0 hi
      have hgd1 : s.getD (i + 1) 0 = s[i + 1] := List.getD_eq_getElem s 0 hi1
      have hdrop : s.drop i = s[i] :: s[i + 1] :: s.drop (i + 2) := by
        rw [List.drop_eq_getElem_cons hi, List.drop_eq_getElem_cons hi1]
      split
      case isTrue hcond =>
        have hlen' : (s.take i ++ toUpperB (s.getD (i + 1) 0) :: s.drop (i + 2)).length
            ≤ n + (i + 1) := by
          simp [List.length_take, List.length_drop]
          omega
        rw [ih _ _ hlen']
        have h1 : (s.take i ++ toUpperB (s.getD (i + 1) 0) :: s.drop (i + 2)).take (i + 1)
            = s.take i ++ [toUpperB (s.getD (i + 1) 0)] := by
          rw [show i + 1 = (s.take i).length + 1 by rw [List.length_take]; omega]
          rw [List.take_append]
          simp
        have h2 : (s.take i ++ toUpperB (s.getD (i + 1) 0) :: s.drop (i + 2)).drop (i + 1)
            = s.drop (i + 2) := by
          rw [show i + 1 = (s.take i).length + 1 by rw [List.length_take]; omega]
          rw [List.drop_append]
          simp
        rw [h1, h2, hdrop, collapseFrom]
        rw [if_pos (by rw [hgd, hgd1] at hcond; exact hcond)]
        rw [hgd1]
        simp [List.append_assoc]
      case isFalse hcond =>
        rw [ih _ _ (by omega)]
        rw [hdrop, collapseFrom]
        rw [if_neg (by rw [hgd, hgd1] at hcond; exact hcond)]
        rw [← List.drop_eq_getElem_cons hi1]
        rw [List.take_succ, List.getElem?_eq_getElem hi]
        simp only [Option.toList_some, List.append_assoc, List.singleton_append]
    case isFalse hlen =>
      have hle : s.length - i ≤ 1 := by omega
      rw [collapseFrom_short p _ (by rw [List.length_drop]; exact hle),
        List.take_append_drop]

/-- The rewrite pass as it is run by `publicize` and `privatize`: starting at
index 1, so the first byte is never treated as a replaceable underscore. -/
def collapseTail (p : Nat → Bool) : List Nat → List Nat
  | [] => []
  | c :: t => c :: collapseFrom p t

/-- Running the loop from index 1 with fuel equal to the length is the pass
over everything after the first byte. -/
theorem replLoop_one (p : Nat → Bool) (s : List Nat) :
    replLoop p s.length s 1 = collapseTail p s := by
  rw [replLoop_eq_collapseFrom p s.length s 1 (by omega)]
  rcases s with _ | ⟨c, t⟩
  · rfl
  · simp [collapseTail]

/-- The two halves of the dot split reassemble to the original name. -/
theorem splitLastDot_append (v : List Nat) :
    (splitLastDot v).1 ++ (splitLastDot v).2 = v := by
  induction v with
  | nil => rfl
  | cons c t ih =>
    rw [splitLastDot]
    split
    · simpa using ih
    · split
      · rename_i hc
        subst hc
        simp
      · simp

/-- A name without a dot splits into an empty prefix and itself. -/
theorem splitLastDot_of_not_mem (v : List Nat) (h : (46 : Nat) ∉ v) :
    splitLastDot v = ([], v) := by
  induction v with
  | nil => rfl
  | cons c t ih =>
    have h1 : (46 : Nat) ∉ t := fun hm => h (List.mem_cons_of_mem c hm)
    have h2 : ¬c = 46 := by
      intro hc
      apply h
      rw [hc]
      exact List.mem_cons_self 46 t
    rw [splitLastDot, if_neg h1, if_neg h2]

/-- A name of the form `pre ++ "." ++ seg` with no dot in `seg` splits into
the prefix up to and including the last dot, and the final segment. -/
theorem splitLastDot_last (pre seg : List Nat) (h : (46 : Nat) ∉ seg) :
    splitLastDot (pre ++ 46 :: seg) = (pre ++ [46], seg) := by
  induction pre with
  | nil =>
    rw [List.nil_append, splitLastDot, if_neg h, if_pos rfl]
    simp
  | cons c t ih =>
    rw [List.cons_append, splitLastDot, if_pos (by simp), ih]
    simp

/-- Inversion for the ASCII lowercase map. -/
theorem toLowerB_inv (c k : Nat) (hc : toLowerB c = k) : c = k ∨ c + 32 = k := by
  unfold toLowerB isUpperB at hc
  split_ifs at hc with hb
  · simp only [Bool.and_eq_true, decide_eq_true_eq] at hb
    omega
  · omega

/-- Every word of a letter group is one of the reserved words. -/
theorem letterGroup_subset (c : Nat) (w : List Nat) (hw : w ∈ letterGroup c) :
    w ∈ goReservedWords := by
  rw [letterGroup] at hw
  by_cases h0 : c = 98 ∨ c = 66
  · rw [if_pos h0] at hw
    simp only [List.mem_cons, List.not_mem_nil, or_false] at hw
    subst hw
    decide
  rw [if_neg h0] at hw
  by_cases h1 : c = 99 ∨ c = 67
  · rw [if_pos h1] at hw
    simp only [List.mem_cons, List.not_mem_nil, or_false] at hw
    rcases hw with rfl | rfl | rfl | rfl <;> decide
  rw [if_neg h1] at hw
  by_cases h2 : c = 100 ∨ c = 68
  · rw [if_pos h2] at hw
    simp only [List.mem_cons, List.not_mem_nil, or_false] at hw
    rcases hw with rfl | rfl <;> decide
  rw [if_neg h2] at hw
  by_cases h3 : c = 101 ∨ c = 69
  · rw [if_pos h3] at hw
    simp only [List.mem_cons, List.not_mem_nil, or_false] at hw
    rcases hw with rfl | rfl <;> decide
  rw [if_neg h3] at hw
  by_cases h4 : c = 102 ∨ c = 70
  · rw [if_pos h4] at hw
    simp only [List.mem_cons, List.not_mem_nil, or_false] at hw
    rcases hw with rfl | rfl | rfl <;> decide
  rw [if_neg h4] at hw
  by_cases h5 : c = 103 ∨ c = 71
  · rw [if_pos h5] at hw
    simp only [List.mem_cons, List.not_mem_nil, or_false] at hw
    rcases hw with rfl | rfl <;> decide
  rw [if_neg h5] at hw
  by_cases h6 : c = 105 ∨ c = 73
  · rw [if_pos h6] at hw
    simp only [List.mem_cons, List.not_mem_nil, or_false] at hw
    rcases hw with rfl | rfl | rfl <;> decide
  rw [if_neg h6] at hw
  by_cases h7 : c = 109 ∨ c = 77
  · rw [if_pos h7] at hw
    simp only [List.mem_cons, List.not_mem_nil, or_false] at hw
    subst hw
    decide
  rw [if_neg h7] at hw
  by_cases h8 : c = 112 ∨ c = 80
  · rw [if_pos h8] at hw
    simp only [List.mem_cons, List.not_mem_nil, or_false] at hw
    subst hw
    decide
  rw [if_neg h8] at hw
  by_cases h9 : c = 114 ∨ c = 82
  · rw [if_pos h9] at hw
    simp only [List.mem_cons, List.not_mem_nil, or_false] at hw
    rcases hw with rfl | rfl <;> decide
  rw [if_neg h9] at hw
  by_cases h10 : c = 115 ∨ c = 83
  · rw [if_pos h10] at hw
    simp only [List.mem_cons, List.not_mem_nil, or_false] at hw
    rcases hw with rfl | rfl | rfl <;> decide
  rw [if_neg h10] at hw
  by_cases h11 : c = 116 ∨ c = 84
  · rw [if_pos h11] at hw
    simp only [List.mem_cons, List.not_mem_nil, or_false] at hw
    subst hw
    decide
  rw [if_neg h11] at hw
  by_cases h12 : c = 118 ∨ c = 86
  · rw [if_pos h12] at hw
    simp only [List.mem_cons, List.not_mem_nil, or_false] at hw
    subst hw
    decide
  rw [if_neg h12] at hw
  exact absurd hw (List.not_mem_nil w)

/-- A reserved word always lands in the letter group selected by the first
byte of the original (not yet lowercased) name. -/
theorem reserved_mem_letterGroup (c : Nat) (rest : List Nat)
    (h : toLowerStr (c :: rest) ∈ goReservedWords) :
    toLowerStr (c :: rest) ∈ letterGroup c := by
  simp only [goReservedWords, List.mem_cons, List.not_mem_nil, or_false] at h
  rcases h with h | h | h | h | h | h | h | h | h | h | h | h | h | h | h | h | h | h | h | h | h | h | h | h | h | h
  · have h2 : toLowerB c :: toLowerStr rest = 98 :: [114, 101, 97, 107] := h
    injection h2 with h1 h3
    have h4 : c = 98 ∨ c = 66 := by
      have h5 := toLowerB_inv c 98 h1
      omega
    rcases h4 with rfl | rfl <;> (rw [h]; decide)
  · have h2 : toLowerB c :: toLowerStr rest = 99 :: [97, 115, 101] := h
    injection h2 with h1 h3
    have h4 : c = 99 ∨ c = 67 := by
      have h5 := toLowerB_inv c 99 h1
      omega
    rcases h4 with rfl | rfl <;> (rw [h]; decide)
  · have h2 : toLowerB c :: toLowerStr rest = 99 :: [104, 97, 110] := h
    injection h2 with h1 h3
    have h4 : c = 99 ∨ c = 67 := by
      have h5 := toLowerB_inv c 99 h1
      omega
    rcases h4 with rfl | rfl <;> (rw [h]; decide)
  · have h2 : toLowerB c :: toLowerStr rest = 99 :: [111, 110, 115, 116] := h
    injection h2 with h1 h3
    have h4 : c = 99 ∨ c = 67 := by
      have h5 := toLowerB_inv c 99 h1
      omega
    rcases h4 with rfl | rfl <;> (rw [h]; decide)
  · have h2 : toLowerB c :: toLowerStr rest = 99 :: [111, 110, 116, 105, 110, 117, 101] := h
    injection h2 with h1 h3
    have h4 : c = 99 ∨ c = 67 := by
      have h5 := toLowerB_inv c 99 h1
      omega
    rcases h4 with rfl | rfl <;> (rw [h]; decide)
  · have h2 : toLowerB c :: toLowerStr rest = 100 :: [101, 102, 97, 117, 108, 116] := h
    injection h2 with h1 h3
    have h4 : c = 100 ∨ c = 68 := by
      have h5 := toLowerB_inv c 100 h1
      omega
    rcases h4 with rfl | rfl <;> (rw [h]; decide)
  · have h2 : toLowerB c :: toLowerStr rest = 100 :: [101, 102, 101, 114] := h
    injection h2 with h1 h3
    have h4 : c = 100 ∨ c = 68 := by
      have h5 := toLowerB_inv c 100 h1
      omega
    rcases h4 with rfl | rfl <;> (rw [h]; decide)
  · have h2 : toLowerB c :: toLowerStr rest = 101 :: [108, 115, 101] := h
    injection h2 with h1 h3
    have h4 : c = 101 ∨ c = 69 := by
      have h5 := toLowerB_inv c 101 h1
      omega
    rcases h4 with rfl | rfl <;> (rw [h]; decide)
  · have h2 : toLowerB c :: toLowerStr rest = 101 :: [114, 114, 111, 114] := h
    injection h2 with h1 h3
    have h4 : c = 101 ∨ c = 69 := by
      have h5 := toLowerB_inv c 101 h1
      omega
    rcases h4 with rfl | rfl <;> (rw [h]; decide)
  · have h2 : toLowerB c :: toLowerStr rest = 102 :: [97, 108, 108, 116, 104, 114, 111, 117, 103, 104] := h
    injection h2 with h1 h3
    have h4 : c = 102 ∨ c = 70 := by
      have h5 := toLowerB_inv c 102 h1
      omega
    rcases h4 with rfl | rfl <;> (rw [h]; decide)
  · have h2 : toLowerB c :: toLowerStr rest = 102 :: [111, 114] := h
    injection h2 with h1 h3
    have h4 : c = 102 ∨ c = 70 := by
      have h5 := toLowerB_inv c 102 h1
      omega
    rcases h4 with rfl | rfl <;> (rw [h]; decide)
  · have h2 : toLowerB c :: toLowerStr rest = 102 :: [117, 110, 99] := h
    injection h2 with h1 h3
    have h4 : c = 102 ∨ c = 70 := by
      have h5 := toLowerB_inv c 102 h1
      omega
    rcases h4 with rfl | rfl <;> (rw [h]; decide)
  · have h2 : toLowerB c :: toLowerStr rest = 103 :: [111] := h
    injection h2 with h1 h3
    have h4 : c = 103 ∨ c = 71 := by
      have h5 := toLowerB_inv c 103 h1
      omega
    rcases h4 with rfl | rfl <;> (rw [h]; decide)
  · have h2 : toLowerB c :: toLowerStr rest = 103 :: [111, 116, 111] := h
    injection h2 with h1 h3
    have h4 : c = 103 ∨ c = 71 := by
      have h5 := toLowerB_inv c 103 h1
      omega
    rcases h4 with rfl | rfl <;> (rw [h]; decide)
  · have h2 : toLowerB c :: toLowerStr rest = 105 :: [102] := h
    injection h2 with h1 h3
    have h4 : c = 105 ∨ c = 73 := by
      have h5 := toLowerB_inv c 105 h1
      omega
    rcases h4 with rfl | rfl <;> (rw [h]; decide)
  · have h2 : toLowerB c :: toLowerStr rest = 105 :: [109, 112, 111, 114, 116] := h
    injection h2 with h1 h3
    have h4 : c = 105 ∨ c = 73 := by
      have h5 := toLowerB_inv c 105 h1
      omega
    rcases h4 with rfl | rfl <;> (rw [h]; decide)
  · have h2 : toLowerB c :: toLowerStr rest = 105 :: [110, 116, 101, 114, 102, 97, 99, 101] := h
    injection h2 with h1 h3
    have h4 : c = 105 ∨ c = 73 := by
      have h5 := toLowerB_inv c 105 h1
      omega
    rcases h4 with rfl | rfl <;> (rw [h]; decide)
  · have h2 : toLowerB c :: toLowerStr rest = 109 :: [97, 112] := h
    injection h2 with h1 h3
    have h4 : c = 109 ∨ c = 77 := by
      have h5 := toLowerB_inv c 109 h1
      omega
    rcases h4 with rfl | rfl <;> (rw [h]; decide)
  · have h2 : toLowerB c :: toLowerStr rest = 112 :: [97, 99, 107, 97, 103, 101] := h
    injection h2 with h1 h3
    have h4 : c = 112 ∨ c = 80 := by
      have h5 := toLowerB_inv c 112 h1
      omega
    rcases h4 with rfl | rfl <;> (rw [h]; decide)
  · have h2 : toLowerB c :: toLowerStr rest = 114 :: [97, 110, 103, 101] := h
    injection h2 with h1 h3
    have h4 : c = 114 ∨ c = 82 := by
      have h5 := toLowerB_inv c 114 h1
      omega
    rcases h4 with rfl | rfl <;> (rw [h]; decide)
  · have h2 : toLowerB c :: toLowerStr rest = 114 :: [101, 116, 117, 114, 110] := h
    injection h2 with h1 h3
    have h4 : c = 114 ∨ c = 82 := by
      have h5 := toLowerB_inv c 114 h1
      omega
    rcases h4 with rfl | rfl <;> (rw [h]; decide)
  · have h2 : toLowerB c :: toLowerStr rest = 115 :: [101, 108, 101, 99, 116] := h
    injection h2 with h1 h3
    have h4 : c = 115 ∨ c = 83 := by
      have h5 := toLowerB_inv c 115 h1
      omega
    rcases h4 with rfl | rfl <;> (rw [h]; decide)
  · have h2 : toLowerB c :: toLowerStr rest = 115 :: [116, 114, 117, 99, 116] := h
    injection h2 with h1 h3
    have h4 : c = 115 ∨ c = 83 := by
      have h5 := toLowerB_inv c 115 h1
      omega
    rcases h4 with rfl | rfl <;> (rw [h]; decide)
  · have h2 : toLowerB c :: toLowerStr rest = 115 :: [119, 105, 116, 99, 104] := h
    injection h2 with h1 h3
    have h4 : c = 115 ∨ c = 83 := by
      have h5 := toLowerB_inv c 115 h1
      omega
    rcases h4 with rfl | rfl <;> (rw [h]; decide)
  · have h2 : toLowerB c :: toLowerStr rest = 116 :: [121, 112, 101] := h
    injection h2 with h1 h3
    have h4 : c = 116 ∨ c = 84 := by
      have h5 := toLowerB_inv c 116 h1
      omega
    rcases h4 with rfl | rfl <;> (rw [h]; decide)
  · have h2 : toLowerB c :: toLowerStr rest = 118 :: [97, 114] := h
    injection h2 with h1 h3
    have h4 : c = 118 ∨ c = 86 := by
      have h5 := toLowerB_inv c 118 h1
      omega
    rcases h4 with rfl | rfl <;> (rw [h]; decide)

/-- Characterization of `variable_name_to_go_name`: the name is returned
unchanged unless its fully lowercased form equals one of the reserved words,
in which case the lowercased form with the `_a1` suffix is returned. -/
theorem varname_eq (v : List Nat) :
    variable_name_to_go_name v =
      if toLowerStr v ∈ goReservedWords then toLowerStr v ++ goNameSuffix else v := by
  rcases v with _ | ⟨c, rest⟩
  · rw [if_neg (by decide)]
    rfl
  · by_cases hm : toLowerStr (c :: rest) ∈ goReservedWords
    · rw [if_pos hm]
      have hg := reserved_mem_letterGroup c rest hm
      simp only [variable_name_to_go_name]
      rw [if_pos hg]
    · rw [if_neg hm]
      have hg : toLowerStr (c :: rest) ∉ letterGroup c :=
        fun hw => hm (letterGroup_subset c _ hw)
      simp only [variable_name_to_go_name]
      rw [if_neg hg]

/-- C7: the keyword-safety transform `variable_name_to_go_name` returns its
input unchanged unless the input's fully lowercased form exactly equals one
of the enumerated reserved words of Go, in which case it returns a
disambiguated form with the suffix `_a1` appended, which is never the bare
reserved word itself. -/
theorem C7_keyword_safety (v : List Nat) :
    (toLowerStr v ∉ goReservedWords → variable_name_to_go_name v = v) ∧
    (toLowerStr v ∈ goReservedWords →
      variable_name_to_go_name v = toLowerStr v ++ goNameSuffix ∧
      variable_name_to_go_name v ≠ toLowerStr v) := by
  constructor
  · intro hnot
    rw [varname_eq, if_neg hnot]
  · intro hmem
    rw [varname_eq, if_pos hmem]
    refine ⟨rfl, ?_⟩
    intro hbad
    have hl := congrArg List.length hbad
    rw [List.length_append] at hl
    have h3 : goNameSuffix.length = 3 := by decide
    omega

/-- Witness for C7 at the concrete name `Type`, whose lowercased form is the
reserved word `type`; the transform yields `type_a1`. -/
theorem C7_keyword_safety_witness :
    (toLowerStr (sLit "Type") ∈ goReservedWords ∧
      variable_name_to_go_name (sLit "Type") = toLowerStr (sLit "Type") ++ goNameSuffix ∧
      variable_name_to_go_name (sLit "Type") ≠ toLowerStr (sLit "Type")) ∧
    variable_name_to_go_name (sLit "Type") = sLit "type_a1" :=
  ⟨⟨by decide, (C7_keyword_safety (sLit "Type")).2 (by decide)⟩, by decide⟩

/-- Structure of `publicize` on any nonempty name: the prefix up to the last
dot is passed through and the final segment gets the first byte uppercased
and then the one pass from index 1. -/
theorem publicize_split (v : List Nat) (hv : v ≠ []) :
    publicize v =
      (splitLastDot v).1 ++ collapseTail isLowerB (capitalizeFirst (splitLastDot v).2) := by
  unfold publicize
  rw [if_neg hv]
  show (splitLastDot v).1 ++
      replLoop isLowerB (capitalizeFirst (splitLastDot v).2).length
        (capitalizeFirst (splitLastDot v).2) 1 = _
  rw [replLoop_one]

/-- Structure of `privatize` on any name: the first byte of the whole name is
lowercased (no dot split) and the one pass from index 1 runs with the
`isalpha` follower predicate. -/
theorem privatize_eq (v : List Nat) :
    privatize v = collapseTail isAlphaB (lowercaseFirst v) := by
  rcases v with _ | ⟨c, t⟩
  · rfl
  · unfold privatize
    rw [if_neg (List.cons_ne_nil c t)]
    show replLoop isAlphaB (lowercaseFirst (c :: t)).length (lowercaseFirst (c :: t)) 1 = _
    rw [replLoop_one]

/-- C8 (amended): `publicize` splits a name at its last dot and passes the
prefix through unchanged; on the final segment it uppercases the first byte
and runs one left-to-right pass, starting at the second byte, that replaces
each underscore followed by a lowercase letter by the capitalized letter;
`my_field_name` maps to `MyFieldName`.  (The pass starts at index 1, so an
underscore at the very start of the segment is never replaced - see the
counterexample for the original claim.) -/
theorem C8_publicize :
    (∀ pre seg : List Nat, (46 : Nat) ∉ seg →
      publicize (pre ++ 46 :: seg) =
        (pre ++ [46]) ++ collapseTail isLowerB (capitalizeFirst seg)) ∧
    (∀ v : List Nat, (46 : Nat) ∉ v →
      publicize v = collapseTail isLowerB (capitalizeFirst v)) ∧
    publicize (sLit "my_field_name") = sLit "MyFieldName" := by
  refine ⟨?_, ?_, by decide⟩
  · intro pre seg h
    rw [publicize_split _ (by simp), splitLastDot_last pre seg h]
  · intro v h
    rcases hv : v with _ | ⟨c, t⟩
    · rfl
    · rw [← hv, publicize_split v (by rw [hv]; exact List.cons_ne_nil c t),
        splitLastDot_of_not_mem v h, List.nil_append]

/-- Witness for C8 at the dotted name `a.b_c` and at `my_field_name`. -/
theorem C8_publicize_witness :
    ((46 : Nat) ∉ sLit "b_c" ∧
      publicize (sLit "a" ++ 46 :: sLit "b_c") =
        (sLit "a" ++ [46]) ++ collapseTail isLowerB (capitalizeFirst (sLit "b_c"))) ∧
    ((46 : Nat) ∉ sLit "my_field_name" ∧
      publicize (sLit "my_field_name") =
        collapseTail isLowerB (capitalizeFirst (sLit "my_field_name"))) :=
  ⟨⟨by decide, C8_publicize.1 (sLit "a") (sLit "b_c") (by decide)⟩,
   ⟨by decide, C8_publicize.2.1 (sLit "my_field_name") (by decide)⟩⟩

/-- The public-casing transform exactly as the specification words it (used
only to compare the claim against `publicize`): split at the last dot, pass
the prefix through, capitalize the first byte of the final segment, and
replace every underscore followed by a lowercase letter - including one at
the very start of the segment. -/
def publicizeClaim (value : List Nat) : List Nat :=
  if value = [] then value
  else (splitLastDot value).1 ++ collapseFrom isLowerB (capitalizeFirst (splitLastDot value).2)

/-- C8 counterexample: on the name `_a` the claim's transform replaces the
leading underscore-lowercase pair and yields `A`, but the generated
`publicize` starts its rewrite loop at index 1 and leaves `_a` unchanged. -/
theorem C8_counterexample :
    publicize (sLit "_a") = sLit "_a" ∧
    publicizeClaim (sLit "_a") = sLit "A" ∧
    publicize (sLit "_a") ≠ publicizeClaim (sLit "_a") :=
  ⟨by decide, by decide, by decide⟩

/-- The private-casing transform that the claim describes: the exact mirror
of `publicize`, i.e. the same last-dot split with unchanged prefix and the
same pass replacing an underscore followed by a lowercase letter, with the
first byte of the final segment lowercased instead of uppercased (used only
to compare the claim against `privatize`). -/
def privatizeClaim (value : List Nat) : List Nat :=
  if value = [] then value
  else (splitLastDot value).1 ++ collapseTail isLowerB (lowercaseFirst (splitLastDot value).2)

/-- C9 (amended): `privatize` is not the mirror of `publicize`: it lowercases
the first byte of the whole name (it performs no module-separator split, so
a dotted name has the first byte of its prefix lowercased) and its pass
collapses an underscore followed by any ASCII letter, not only a lowercase
one. -/
theorem C9_privatize (v : List Nat) (c : Nat) (t : List Nat) (hv : v = c :: t) :
    privatize v = (if isLowerB c then c else toLowerB c) :: collapseFrom isAlphaB t := by
  rw [hv, privatize_eq]
  rfl

/-- Witness for C9 at the concrete name `A_B`. -/
theorem C9_privatize_witness :
    (sLit "A_B" = 65 :: sLit "_B") ∧
    privatize (sLit "A_B") =
      (if isLowerB 65 then 65 else toLowerB 65) :: collapseFrom isAlphaB (sLit "_B") :=
  ⟨by decide, C9_privatize (sLit "A_B") 65 (sLit "_B") (by decide)⟩

/-- C9 counterexample: on the name `A.B_C` the mirror transform keeps the
prefix `A.` and yields `A.b_C` (the underscore is kept, since `C` is not
lowercase), but the generated `privatize` lowercases the leading `A` of the
prefix and collapses `_C`, yielding `a.BC`. -/
theorem C9_counterexample :
    privatize (sLit "A.B_C") = sLit "a.BC" ∧
    privatizeClaim (sLit "A.B_C") = sLit "A.b_C" ∧
    privatize (sLit "A.B_C") ≠ privatizeClaim (sLit "A.B_C") :=
  ⟨by decide, by decide, by decide⟩

/-- Minimum value of a 32-bit signed integer (Go `math.MinInt32`). -/
def minInt32 : Int := -2147483648

/-- The out-of-range sentinel `math.MinInt32 - 1` used by the generated code
for "unset" enum values (t_go_generator.cc lines 706, 1003, 1090). -/
def goUnsetSentinel : Int := minInt32 - 1

/-- One member of an IDL enum declaration: its name and optional explicit
integer value (the `t_enum_value` AST node consumed by `generate_enum`). -/
structure EnumMember where
  name : List Nat
  value : Option Int
deriving DecidableEq

/-- Model of the value-assignment loop of `generate_enum`
(t_go_generator.cc lines 672-698): `int value = -1;` then per member either
`value = (*c_iter)->get_value()` or `++value`, emitting each constant with
the current `value`.  `prev` is the running value. -/
def enumAssignFrom (prev : Int) : List EnumMember → List (List Nat × Int)
  | [] => []
  | m :: t =>
    match m.value with
    | some x => (m.name, x) :: enumAssignFrom x t
    | none => (m.name, prev + 1) :: enumAssignFrom (prev + 1) t

/-- The name/value pairs of the generated enum constants
(`TenumName_Name TenumName = value`, t_go_generator.cc line 684). -/
def enumAssign (members : List EnumMember) : List (List Nat × Int) :=
  enumAssignFrom (-1) members

/-- Result of the generated `FromString` function: a recognized constant's
value (with nil error), or the sentinel value together with the bytes of the
`fmt.Errorf` message (t_go_generator.cc lines 690-697 and 704-708). -/
inductive FromStringResult where
  | ok (v : Int)
  | err (v : Int) (msg : List Nat)
deriving DecidableEq

/-- The `case` labels of the generated `FromString` switch for one constant
(t_go_generator.cc lines 689-697): the label `"<EnumName>_<name>"`; the
source would add the bare escaped name as a second label when
`iter_std_name != escape_string(iter_name)` (line 689), but `iter_std_name`
is itself `escape_string` of the same name (line 681), so that comparison -
kept in the model - never holds. -/
def fromStringLabels (tenumName nm : List Nat) : List (List Nat) :=
  if escapeString nm ≠ escapeString nm then
    [tenumName ++ 95 :: escapeString nm, escapeString nm]
  else
    [tenumName ++ 95 :: escapeString nm]

/-- The dead alternative label of line 689 never appears. -/
theorem fromStringLabels_eq (tenumName nm : List Nat) :
    fromStringLabels tenumName nm = [tenumName ++ 95 :: escapeString nm] :=
  if_neg (fun h => h rfl)

/-- The error message of the generated `FromString` default path:
`"not a valid <EnumName> string"` (t_go_generator.cc line 706-707). -/
def fromStringErrMsg (tenumName : List Nat) : List Nat :=
  sLit "not a valid " ++ tenumName ++ sLit " string"

/-- Model of the `FromString` function emitted by `generate_enum`
(t_go_generator.cc lines 667-669, 689-697, 704-708): a Go `switch s` over
the labels of every constant in declaration order, returning the first
matching constant's value, with the default branch returning
`EnumName(math.MinInt32 - 1)` and an error naming the enum. -/
def enumFromString (tenumName : List Nat) (members : List EnumMember)
    (s : List Nat) : FromStringResult :=
  match (enumAssign members).find?
      (fun c => (fromStringLabels tenumName c.1).any (fun l => decide (l = s))) with
  | some c => .ok c.2
  | none => .err goUnsetSentinel (fromStringErrMsg tenumName)

/-- Model of the `String()` method emitted by `generate_enum`
(t_go_generator.cc lines 664-666, 686-687, 700-703): a Go `switch p` over
the generated constants, returning `"<EnumName>_<name>"` for the first
constant whose value equals `p`, and the literal `"<UNSET>"` by default. -/
def enumToString (tenumName : List Nat) (members : List EnumMember)
    (v : Int) : List Nat :=
  match (enumAssign members).find? (fun c => decide (c.2 = v)) with
  | some c => tenumName ++ 95 :: escapeString c.1
  | none => sLit "<UNSET>"

/-- The `Color` enum of the spec's concrete scenario: `RED` and `GREEN`
implicit, `BLUE = 5`. -/
def colorMembers : List EnumMember :=
  [⟨sLit "RED", none⟩, ⟨sLit "GREEN", none⟩, ⟨sLit "BLUE", some 5⟩]

/-- The assignment loop emits one constant per member. -/
theorem enumAssignFrom_length (ms : List EnumMember) :
    ∀ prev : Int, (enumAssignFrom prev ms).length = ms.length := by
  induction ms with
  | nil => intro prev; rfl
  | cons m t ih =>
    intro prev
    rcases hm : m.value with _ | x <;>
      simp [enumAssignFrom, hm, ih]

/-- Value assignment of `generate_enum`, member by member: names are kept,
an explicit value is taken as is, and a member with no explicit value gets
the previous member's value plus one - the running value `prev` plus one at
the head. -/
theorem enumAssignFrom_spec (ms : List EnumMember) :
    ∀ (prev : Int) (i : Nat), i < ms.length →
      (((enumAssignFrom prev ms).getD i ([], 0)).1 = (ms.getD i ⟨[], none⟩).name) ∧
      (∀ x : Int, (ms.getD i ⟨[], none⟩).value = some x →
        ((enumAssignFrom prev ms).getD i ([], 0)).2 = x) ∧
      ((ms.getD i ⟨[], none⟩).value = none →
        ((enumAssignFrom prev ms).getD i ([], 0)).2 =
          if i = 0 then prev + 1
          else ((enumAssignFrom prev ms).getD (i - 1) ([], 0)).2 + 1) := by
  induction ms with
  | nil =>
    intro prev i hi
    simp at hi
  | cons m t ih =>
    intro prev i hi
    match i with
    | 0 =>
      rcases hm : m.value with _ | x <;>
        simp [enumAssignFrom, hm]
    | Nat.succ j =>
      have hj : j < t.length := by
        simp at hi
        omega
      rcases hm : m.value with _ | x
      · have iht := ih (prev + 1) j hj
        refine ⟨?_, ?_, ?_⟩
        · simpa [enumAssignFrom, hm] using iht.1
        · intro x hx
          have := iht.2.1 x (by simpa using hx)
          simpa [enumAssignFrom, hm] using this
        · intro hx
          have h2 := iht.2.2 (by simpa using hx)
          simp only [enumAssignFrom, hm, List.getD_cons_succ]
          rw [h2]
          match j with
          | 0 => simp [enumAssignFrom, hm]
          | Nat.succ k => simp [enumAssignFrom, hm]
      · have iht := ih x j hj
        refine ⟨?_, ?_, ?_⟩
        · simpa [enumAssignFrom, hm] using iht.1
        · intro y hy
          have := iht.2.1 y (by simpa using hy)
          simpa [enumAssignFrom, hm] using this
        · intro hy
          have h2 := iht.2.2 (by simpa using hy)
          simp only [enumAssignFrom, hm, List.getD_cons_succ]
          rw [h2]
          match j with
          | 0 => simp [enumAssignFrom, hm]
          | Nat.succ k => simp [enumAssignFrom, hm]

/-- C4 (amended): in `generate_enum`, a member with no explicit value gets
the previous member's value plus one, the very first member defaulting to 0
(the running value starts at -1); `Color` with `RED`, `GREEN` implicit and
`BLUE = 5` yields RED=0, GREEN=1, BLUE=5.  The `FromString` switch labels
carry the enum-name prefix, so the constant of value 5 is produced for the
input `"Color_BLUE"` (and not for the bare `"BLUE"` - see the
counterexample). -/
theorem C4_enum_values :
    (∀ (members : List EnumMember) (i : Nat), i < members.length →
      ((enumAssign members).length = members.length) ∧
      (((enumAssign members).getD i ([], 0)).1 = (members.getD i ⟨[], none⟩).name) ∧
      (∀ x : Int, (members.getD i ⟨[], none⟩).value = some x →
        ((enumAssign members).getD i ([], 0)).2 = x) ∧
      ((members.getD i ⟨[], none⟩).value = none →
        ((enumAssign members).getD i ([], 0)).2 =
          if i = 0 then 0 else ((enumAssign members).getD (i - 1) ([], 0)).2 + 1)) ∧
    (enumAssign colorMembers =
      [(sLit "RED", 0), (sLit "GREEN", 1), (sLit "BLUE", 5)]) ∧
    enumFromString (publicize (sLit "Color")) colorMembers (sLit "Color_BLUE") =
      .ok 5 := by
  refine ⟨?_, by decide, by decide⟩
  intro members i hi
  have hs := enumAssignFrom_spec members (-1) i hi
  refine ⟨enumAssignFrom_length members (-1), hs.1, hs.2.1, ?_⟩
  intro hx
  unfold enumAssign
  have h2 := hs.2.2 hx
  rw [h2]
  norm_num

/-- Witness for C4 at the `Color` enum: `GREEN` (index 1, implicit) is the
previous constant's value plus one. -/
theorem C4_enum_values_witness :
    (1 < colorMembers.length ∧ (colorMembers.getD 1 ⟨[], none⟩).value = none) ∧
    ((enumAssign colorMembers).getD 1 ([], 0)).2 =
      if 1 = 0 then 0 else ((enumAssign colorMembers).getD 0 ([], 0)).2 + 1 :=
  ⟨⟨by decide, by decide⟩,
    (C4_enum_values.1 colorMembers 1 (by decide)).2.2.2 (by decide)⟩

/-- C4 counterexample: `ColorFromString` applied to the bare string `"BLUE"`
does not match the prefixed case label `"Color_BLUE"` and returns the
sentinel/error pair, not the constant of value 5. -/
theorem C4_counterexample :
    enumFromString (publicize (sLit "Color")) colorMembers (sLit "BLUE") =
      .err goUnsetSentinel (fromStringErrMsg (publicize (sLit "Color"))) ∧
    enumFromString (publicize (sLit "Color")) colorMembers (sLit "BLUE") ≠
      .ok 5 :=
  ⟨by decide, by decide⟩

/-- C6 (amended): `FromString` on a string matching no case label returns
the error result whose value is the sentinel `MinInt32 - 1` and whose
message is `"not a valid <EnumName> string"` - it names the enum and does
not carry the candidate string (see the counterexample). -/
theorem C6_from_string_error (tenumName : List Nat) (members : List EnumMember)
    (s : List Nat)
    (h : ∀ c ∈ enumAssign members, tenumName ++ 95 :: escapeString c.1 ≠ s) :
    enumFromString tenumName members s =
      .err goUnsetSentinel (fromStringErrMsg tenumName) := by
  unfold enumFromString
  have hn : (enumAssign members).find?
      (fun c => (fromStringLabels tenumName c.1).any (fun l => decide (l = s))) = none := by
    apply List.find?_eq_none.mpr
    intro c hc
    rw [fromStringLabels_eq]
    simp only [List.any_cons, List.any_nil, Bool.or_false, decide_eq_true_eq]
    exact h c hc
  rw [hn]

/-- Witness for C6: `ColorFromString "PURPLE"` matches no case label and
hits the default branch. -/
theorem C6_from_string_error_witness :
    enumFromString (publicize (sLit "Color")) colorMembers (sLit "PURPLE") =
      .err goUnsetSentinel (fromStringErrMsg (publicize (sLit "Color"))) :=
  C6_from_string_error _ colorMembers _ (by decide)

/-- C6 counterexample: the error for the unrecognized candidate `"PURPLE"`
is `"not a valid Color string"`; the candidate string does not occur in the
message, so the error does not carry the candidate as the claim states. -/
theorem C6_counterexample :
    enumFromString (publicize (sLit "Color")) colorMembers (sLit "PURPLE") =
      .err goUnsetSentinel (sLit "not a valid Color string") ∧
    ¬ (sLit "PURPLE") <:+: (sLit "not a valid Color string") :=
  ⟨by decide, by decide⟩

/-- C10: the generated `String()` method, applied to a value that is none of
the declared enum constants, falls through the switch and returns the
literal `"<UNSET>"`. -/
theorem C10_to_string_unset (tenumName : List Nat) (members : List EnumMember)
    (v : Int) (h : ∀ c ∈ enumAssign members, c.2 ≠ v) :
    enumToString tenumName members v = sLit "<UNSET>" := by
  unfold enumToString
  have hn : (enumAssign members).find? (fun c => decide (c.2 = v)) = none := by
    apply List.find?_eq_none.mpr
    intro c hc
    simpa using h c hc
  rw [hn]

/-- Witness for C10: `Color(3).String()` is `"<UNSET>"` since 3 is not one
of the declared values 0, 1, 5. -/
theorem C10_to_string_unset_witness :
    enumToString (publicize (sLit "Color")) colorMembers 3 = sLit "<UNSET>" :=
  C10_to_string_unset _ colorMembers 3 (by decide)

/-- The resolved ("true", typedef-followed) type of a field, as dispatched
on by the struct generators (`get_true_type`). -/
inductive GoFieldType where
  | tBool
  | tByte
  | tI16
  | tI32
  | tI64
  | tDouble
  | tString (binary : Bool)
  | tEnum
  | tStruct
  | tXception
  | tList
  | tSet
  | tMap
deriving DecidableEq

/-- Requiredness of a field (`t_field::e_req`). -/
inductive EReq where
  | t_required
  | t_optional
  | t_opt_in_req_out
deriving DecidableEq

/-- One struct field as consumed by the struct generators: IDL name, wire
key (signed), resolved type, requiredness, and whether a default value was
declared (`get_value() != NULL`). -/
structure GoField where
  name : List Nat
  key : Int
  ftype : GoFieldType
  req : EReq
  hasDefault : Bool
deriving DecidableEq

/-- Model of `t_go_generator::can_be_nil` (t_go_generator.cc lines
3307-3342) on the resolved type: bool, the numeric types and enums cannot
be nil; a string can when it is binary; structs, exceptions and containers
can.  (A `void` field type throws in the source and cannot occur here.) -/
def can_be_nil : GoFieldType → Bool
  | .tBool => false
  | .tByte => false
  | .tI16 => false
  | .tI32 => false
  | .tI64 => false
  | .tDouble => false
  | .tString b => b
  | .tEnum => false
  | .tStruct => true
  | .tXception => true
  | .tMap => true
  | .tSet => true
  | .tList => true

/-- Model of the loop of `generate_isset_helpers` (t_go_generator.cc lines
1035-1119): an `IsSet<Field>` accessor is emitted exactly for the fields
that are optional or whose resolved type is an enum, named
`publicize(variable_name_to_go_name(escape_string(name)))` (line 1039). -/
def issetHelperNames : List GoField → List (List Nat)
  | [] => []
  | f :: t =>
    if f.req = .t_optional ∨ f.ftype = .tEnum then
      publicize (variable_name_to_go_name (escapeString f.name)) :: issetHelperNames t
    else issetHelperNames t

/-- The initializer emitted for one field by the generated constructor
(t_go_generator.cc lines 1000-1004). -/
inductive FieldInit where
  | declaredDefault
  | intLit (v : Int)
deriving DecidableEq

/-- Model of the constructor-initializer loop of
`generate_go_struct_definition` (t_go_generator.cc lines 990-1005): a field
with a declared default gets that rendered default; otherwise an enum-typed
field is initialized to `math.MinInt32 - 1` (the unset sentinel, line
1003); every other field gets no initializer. -/
def constructorInit (f : GoField) : Option FieldInit :=
  if f.hasDefault then some .declaredDefault
  else if f.ftype = .tEnum then some (.intLit goUnsetSentinel)
  else none

/-- Semantics of the is-set test emitted for an enum-typed field
(t_go_generator.cc lines 1089-1091): `int64(p.Field) != math.MinInt32 - 1`. -/
def enumIssetCheck (v : Int) : Bool := decide (v ≠ goUnsetSentinel)

/-- C5: `generate_isset_helpers` emits an is-set accessor for exactly the
optional or enum-typed fields; an enum-typed field with no declared default
is initialized in the generated constructor to the sentinel
`MinInt32 - 1`; and the emitted is-set test for an enum-typed field holds
exactly when the value differs from that sentinel. -/
theorem C5_isset_helpers (fields : List GoField) (f : GoField) :
    (issetHelperNames fields =
      (fields.filter (fun g => decide (g.req = .t_optional ∨ g.ftype = .tEnum))).map
        (fun g => publicize (variable_name_to_go_name (escapeString g.name)))) ∧
    (f.ftype = .tEnum → f.hasDefault = false →
      constructorInit f = some (.intLit (minInt32 - 1))) ∧
    (∀ v : Int, enumIssetCheck v = true ↔ v ≠ minInt32 - 1) := by
  refine ⟨?_, ?_, ?_⟩
  · induction fields with
    | nil => rfl
    | cons g t ih =>
      by_cases hg : g.req = EReq.t_optional ∨ g.ftype = GoFieldType.tEnum
      · rw [issetHelperNames, if_pos hg, ih, List.filter_cons_of_pos (by simpa using hg),
          List.map_cons]
      · rw [issetHelperNames, if_neg hg, ih, List.filter_cons_of_neg (by simpa using hg)]
  · intro h1 h2
    unfold constructorInit
    rw [h2, if_neg (by simp), if_pos h1]
    rfl
  · intro v
    unfold enumIssetCheck goUnsetSentinel
    simp

/-- Witness for C5 at a concrete enum-typed field with no default. -/
theorem C5_isset_helpers_witness :
    (GoField.mk (sLit "color") 1 .tEnum .t_opt_in_req_out false).ftype = .tEnum ∧
    (GoField.mk (sLit "color") 1 .tEnum .t_opt_in_req_out false).hasDefault = false ∧
    constructorInit (GoField.mk (sLit "color") 1 .tEnum .t_opt_in_req_out false) =
      some (.intLit (minInt32 - 1)) ∧
    (enumIssetCheck 0 = true ↔ (0 : Int) ≠ minInt32 - 1) :=
  ⟨rfl, rfl,
    (C5_isset_helpers [] (GoField.mk (sLit "color") 1 .tEnum .t_opt_in_req_out false)).2.1
      rfl rfl,
    (C5_isset_helpers [] (GoField.mk (sLit "color") 1 .tEnum .t_opt_in_req_out false)).2.2 0⟩

/-- One line of the field-declaration block emitted by
`generate_go_struct_definition` (t_go_generator.cc lines 950-982). -/
inductive StructDeclLine where
  | unusedMarker (pos : Int)
  | taggedField (goName : List Nat) (tag : Int) (required : Bool)
  | plainField (goName : List Nat)
deriving DecidableEq

/-- The `// unused field #` markers emitted while `sorted_keys_pos` walks
from `pos` up to the next field key (t_go_generator.cc lines 954-958); the
marker is skipped when the position is 0 (line 955). -/
def gapMarkers (pos key : Int) : List StructDeclLine :=
  (List.range (key - pos).toNat).filterMap
    (fun (j : Nat) =>
      if pos + (j : Int) = 0 then none else some (.unusedMarker (pos + (j : Int))))

/-- The sorted branch of the field-declaration walk (t_go_generator.cc
lines 951-974): for each field of the key-sorted view, emit the gap markers
from the walking position up to the field's key, then the field itself
(named `publicize(variable_name_to_go_name(name))`, line 963) tagged with
`sorted_keys_pos` - which at that point equals the field's key - plus its
`required` annotation (lines 968-970); the walk continues from `key + 1`.
On the generator's inputs the sorted keys strictly increase, so the C++
inner loop `for (; sorted_keys_pos != key; sorted_keys_pos++)` is exactly
the walk from `pos` up to `key`. -/
def walkFields (pos : Int) : List GoField → List StructDeclLine
  | [] => []
  | f :: t =>
    gapMarkers pos f.key ++
      .taggedField (publicize (variable_name_to_go_name f.name)) f.key
          (decide (f.req = .t_required)) :: walkFields (f.key + 1) t

/-- Dummy field used only for `headD`. -/
def defaultGoField : GoField := ⟨[], 0, .tBool, .t_opt_in_req_out, false⟩

/-- Model of the field-declaration block of `generate_go_struct_definition`
(t_go_generator.cc lines 950-982): if the key-sorted member list is empty
or its first key is non-negative, walk the key positions from 0 emitting
gap markers; otherwise declare the members in declaration order
(`publicize(name)`, line 979) with no markers. -/
def structDefLines (members sortedMembers : List GoField) : List StructDeclLine :=
  if sortedMembers = [] ∨ 0 ≤ (sortedMembers.headD defaultGoField).key then
    walkFields 0 sortedMembers
  else
    members.map (fun f => .plainField (publicize f.name))

/-- Membership in the gap markers between `pos` and `key`. -/
theorem mem_gapMarkers (pos key q : Int) :
    StructDeclLine.unusedMarker q ∈ gapMarkers pos key ↔
      (q ≠ 0 ∧ pos ≤ q ∧ q < key) := by
  constructor
  · intro hmem
    obtain ⟨j, hj, hq⟩ := List.mem_filterMap.mp hmem
    have hjk : (j : Int) < key - pos := by
      have h := List.mem_range.mp hj
      omega
    split_ifs at hq with h0
    simp only [Option.some.injEq, StructDeclLine.unusedMarker.injEq] at hq
    omega
  · rintro ⟨h0, hpq, hqk⟩
    apply List.mem_filterMap.mpr
    refine ⟨(q - pos).toNat, List.mem_range.mpr (by omega), ?_⟩
    rw [if_neg (by omega)]
    rw [show pos + (((q - pos).toNat : Nat) : Int) = q by omega]

/-- The markers of the sorted-branch walk are exactly the nonzero positions
that lie strictly below some field's key without being any field's key,
provided the keys strictly increase and start at or after the walking
position. -/
theorem mem_walkFields (fields : List GoField) :
    ∀ pos : Int, List.Pairwise (fun a b : GoField => a.key < b.key) fields →
      (∀ f ∈ fields, pos ≤ f.key) → ∀ q : Int,
      (StructDeclLine.unusedMarker q ∈ walkFields pos fields ↔
        (q ≠ 0 ∧ pos ≤ q ∧ (∃ f ∈ fields, q < f.key) ∧ ∀ f ∈ fields, f.key ≠ q)) := by
  induction fields with
  | nil =>
    intro pos _ _ q
    simp [walkFields]
  | cons f t ih =>
    intro pos hpw hpos q
    have hfk : pos ≤ f.key := hpos f (List.mem_cons_self f t)
    have hhead : ∀ g ∈ t, f.key < g.key := (List.pairwise_cons.mp hpw).1
    have hpw2 : List.Pairwise (fun a b : GoField => a.key < b.key) t :=
      (List.pairwise_cons.mp hpw).2
    have hpos2 : ∀ g ∈ t, f.key + 1 ≤ g.key := fun g hg => by
      have := hhead g hg
      omega
    rw [walkFields]
    constructor
    · intro hmem
      rcases List.mem_append.mp hmem with hg | hc
      · obtain ⟨h0, h1, h2⟩ := (mem_gapMarkers pos f.key q).mp hg
        refine ⟨h0, h1, ⟨f, List.mem_cons_self f t, h2⟩, ?_⟩
        intro g hg2
        rcases List.mem_cons.mp hg2 with rfl | hg3
        · omega
        · have := hhead g hg3
          omega
      · rcases List.mem_cons.mp hc with heq | hw
        · simp at heq
        · obtain ⟨h0, h1, ⟨g, hg2, hgq⟩, h4⟩ := (ih (f.key + 1) hpw2 hpos2 q).mp hw
          refine ⟨h0, by omega, ⟨g, List.mem_cons_of_mem f hg2, hgq⟩, ?_⟩
          intro g2 hg3
          rcases List.mem_cons.mp hg3 with rfl | hg4
          · omega
          · exact h4 g2 hg4
    · rintro ⟨h0, h1, ⟨g, hg, hgq⟩, h4⟩
      have hfq : f.key ≠ q := h4 f (List.mem_cons_self f t)
      by_cases hq : q < f.key
      · exact List.mem_append.mpr
          (Or.inl ((mem_gapMarkers pos f.key q).mpr ⟨h0, h1, hq⟩))
      · apply List.mem_append.mpr
        apply Or.inr
        apply List.mem_cons_of_mem
        apply (ih (f.key + 1) hpw2 hpos2 q).mpr
        refine ⟨h0, by omega, ?_, fun g2 hg2 => h4 g2 (List.mem_cons_of_mem f hg2)⟩
        rcases List.mem_cons.mp hg with rfl | hg3
        · omega
        · exact ⟨g, hg3, hgq⟩

/-- On a sorted view whose keys are all non-negative the declaration block
is the walk from position 0. -/
theorem structDefLines_nonneg (members sorted : List GoField)
    (h : ∀ f ∈ sorted, 0 ≤ f.key) :
    structDefLines members sorted = walkFields 0 sorted := by
  rcases sorted with _ | ⟨f, t⟩
  · rfl
  · unfold structDefLines
    rw [if_pos (Or.inr (show (0 : Int) ≤ ((f :: t).headD defaultGoField).key from
      h f (List.mem_cons_self f t)))]

/-- Concrete field keyed 1 for the `{1,3}` scenario. -/
def fieldK1 : GoField := ⟨sLit "a", 1, .tI32, .t_opt_in_req_out, false⟩

/-- Concrete field keyed 3 for the `{1,3}` scenario. -/
def fieldK3 : GoField := ⟨sLit "b", 3, .tI32, .t_opt_in_req_out, false⟩

/-- Concrete field keyed -2 for the negative-key scenario. -/
def fieldKm2 : GoField := ⟨sLit "x", -2, .tI32, .t_opt_in_req_out, false⟩

/-- Concrete field keyed -1 for the negative-key scenario. -/
def fieldKm1 : GoField := ⟨sLit "y", -1, .tI32, .t_opt_in_req_out, false⟩

/-- C3 (amended): when the key-sorted view starts at a negative key, the
declaration block lists the members in declaration order with no gap
markers; when the sorted keys are non-negative (and strictly increasing,
as the sorted view of a record with unique keys is), the walk from 0 emits
an "unused field" marker for exactly the nonzero gap positions - position
0 never receives a marker even when it is a gap. -/
theorem C3_gap_markers :
    (∀ (members : List GoField) (f0 : GoField) (t : List GoField),
      f0.key < 0 →
      structDefLines members (f0 :: t) =
        members.map (fun f => .plainField (publicize f.name))) ∧
    (∀ (members sorted : List GoField),
      List.Pairwise (fun a b : GoField => a.key < b.key) sorted →
      (∀ f ∈ sorted, 0 ≤ f.key) →
      ∀ q : Int,
        (StructDeclLine.unusedMarker q ∈ structDefLines members sorted ↔
          (q ≠ 0 ∧ 0 ≤ q ∧ (∃ f ∈ sorted, q < f.key) ∧ ∀ f ∈ sorted, f.key ≠ q))) := by
  constructor
  · intro members f0 t h
    unfold structDefLines
    rw [if_neg (by
      rintro (habs | hge)
      · exact List.cons_ne_nil f0 t habs
      · have h2 : (0 : Int) ≤ f0.key := hge
        omega)]
  · intro members sorted hpw hnn q
    rw [structDefLines_nonneg members sorted hnn]
    exact mem_walkFields sorted 0 hpw hnn q

/-- Witness for C3: the negative branch at fields keyed `{-2,-1}` and the
marker characterization at fields keyed `{1,3}` for position 2. -/
theorem C3_gap_markers_witness :
    StructDeclLine.unusedMarker 2 ∈
      structDefLines [fieldK1, fieldK3] [fieldK1, fieldK3] ∧
    structDefLines [fieldKm2, fieldKm1] [fieldKm2, fieldKm1] =
      [.plainField (sLit "X"), .plainField (sLit "Y")] :=
  ⟨(C3_gap_markers.2 [fieldK1, fieldK3] [fieldK1, fieldK3] (by decide) (by decide) 2).mpr
      (by decide),
   by
    rw [C3_gap_markers.1 [fieldKm2, fieldKm1] fieldKm2 [fieldKm1] (by decide)]
    decide⟩

/-- C3 counterexample: for fields keyed `{1,3}` the walk from 0 passes the
gap positions 0 and 2, but only position 2 receives a marker - the marker
for position 0 is explicitly skipped (t_go_generator.cc line 955), so a
marker is not emitted for every gap position as the claim states. -/
theorem C3_counterexample :
    structDefLines [fieldK1, fieldK3] [fieldK1, fieldK3] =
      [.taggedField (sLit "A") 1 false, .unusedMarker 2,
        .taggedField (sLit "B") 3 false] ∧
    StructDeclLine.unusedMarker 2 ∈
      structDefLines [fieldK1, fieldK3] [fieldK1, fieldK3] ∧
    StructDeclLine.unusedMarker 0 ∉
      structDefLines [fieldK1, fieldK3] [fieldK1, fieldK3] :=
  ⟨by decide, by decide, by decide⟩

/-- One branch of the `Write` dispatch emitted by
`generate_go_struct_writer` (t_go_generator.cc lines 1259-1303). -/
inductive WriteBranch where
  | caseNil (goName : List Nat) (underscored : Bool) (fid : Int)
  | defaultBranch (underscored : Bool) (fid : Int)
  | unconditional (underscored : Bool) (fid : Int)
deriving DecidableEq

/-- The writer-method identity for a wire key (t_go_generator.cc lines
1265-1272 and 1289-1297): a negative key selects the `writeField_` prefix
(`underscored = true`) and its negated value, so the method name stays a
valid identifier. -/
def writeFieldMethod (key : Int) : Bool × Int :=
  if key < 0 then (true, -key) else (false, key)

/-- The branch emitted for one field of the reverse iteration of the result
switch (t_go_generator.cc lines 1264-1283): a field whose type can be nil
and whose id is not 0 becomes a `case p.Name != nil:` guard (lines
1274-1277; the C++ tests the negated `field_id`, which is zero exactly when
the key is), and every other field becomes a `default:` branch (lines
1278-1282). -/
def resultBranch (f : GoField) : WriteBranch :=
  if can_be_nil f.ftype = true ∧ f.key ≠ 0 then
    .caseNil (publicize (variable_name_to_go_name f.name))
      (writeFieldMethod f.key).1 (writeFieldMethod f.key).2
  else
    .defaultBranch (writeFieldMethod f.key).1 (writeFieldMethod f.key).2

/-- Model of the `Write` dispatch structure of `generate_go_struct_writer`
(t_go_generator.cc lines 1259-1303): a result struct with at least one
field gets a Go `switch` built by iterating the key-sorted fields in
reverse (`rbegin`/`rend`); any other struct gets one unconditional
`writeFieldN` call per field in key-sorted order (lines 1288-1302). -/
def writeDispatch (isResult : Bool) (sortedFields : List GoField) :
    List WriteBranch :=
  if isResult = true ∧ sortedFields ≠ [] then
    sortedFields.reverse.map resultBranch
  else
    sortedFields.map (fun f =>
      .unconditional (writeFieldMethod f.key).1 (writeFieldMethod f.key).2)

/-- Whether a branch is a live `case`: its guard `p.Name != nil` holds
under the given nil-ness of the fields. -/
def isCaseGuardLive (isNil : List Nat → Bool) : WriteBranch → Bool
  | .caseNil n _ _ => !(isNil n)
  | _ => false

/-- Whether a branch is the `default:` branch. -/
def isDefaultB : WriteBranch → Bool
  | .defaultBranch _ _ => true
  | _ => false

/-- Go semantics of the emitted `switch`: the guards are evaluated top to
bottom and the first case whose guard holds runs; the `default` branch runs
only when no case matches; at most one branch ever runs. -/
def switchFired (branches : List WriteBranch) (isNil : List Nat → Bool) :
    Option WriteBranch :=
  match branches.find? (isCaseGuardLive isNil) with
  | some b => some b
  | none => branches.find? isDefaultB

/-- The single branch of the result switch that fires when the record is a
key-0 success field plus nil-guarded exception cases: the first exception
of the reverse-ordered cases that is set (not nil), or the `default:`
branch of the success field when every exception is nil. -/
def firedResultBranch (rest : List GoField) (isNil : List Nat → Bool) :
    WriteBranch :=
  match rest.reverse.find?
      (fun f => !(isNil (publicize (variable_name_to_go_name f.name)))) with
  | some f => .caseNil (publicize (variable_name_to_go_name f.name))
      (writeFieldMethod f.key).1 (writeFieldMethod f.key).2
  | none => .defaultBranch false 0

/-- C2 (amended): a non-result record's `Write` invokes the per-field
writer of every field unconditionally in the order of the key-sorted view;
a synthesized Result record shaped as a key-0 success field plus nil-able
nonzero-key exception fields gets a first-match-wins switch that tests the
exceptions in reverse key order under nil guards and writes the success
field as the unique `default:` branch, so exactly one branch fires: the
highest-keyed set exception, or else the success field.  (A result record
consisting only of nil-able nonzero-key fields gets no default branch at
all - see the counterexample.) -/
theorem C2_struct_writer :
    (∀ sorted : List GoField,
      writeDispatch false sorted =
        sorted.map (fun f =>
          .unconditional (writeFieldMethod f.key).1 (writeFieldMethod f.key).2)) ∧
    (writeDispatch true [] = []) ∧
    (∀ (f0 : GoField) (rest : List GoField) (isNil : List Nat → Bool),
      f0.key = 0 →
      (∀ f ∈ rest, can_be_nil f.ftype = true ∧ f.key ≠ 0) →
      writeDispatch true (f0 :: rest) =
        rest.reverse.map (fun f =>
          WriteBranch.caseNil (publicize (variable_name_to_go_name f.name))
            (writeFieldMethod f.key).1 (writeFieldMethod f.key).2) ++
          [WriteBranch.defaultBranch false 0] ∧
      switchFired (writeDispatch true (f0 :: rest)) isNil =
        some (firedResultBranch rest isNil)) := by
  refine ⟨?_, rfl, ?_⟩
  · intro sorted
    unfold writeDispatch
    rw [if_neg (by rintro ⟨h, -⟩; cases h)]
  · intro f0 rest isNil h0 hrest
    have hd : resultBranch f0 = WriteBranch.defaultBranch false 0 := by
      unfold resultBranch
      rw [if_neg (by rw [h0]; simp), h0]
      rfl
    have hwd : writeDispatch true (f0 :: rest) =
        rest.reverse.map (fun f =>
          WriteBranch.caseNil (publicize (variable_name_to_go_name f.name))
            (writeFieldMethod f.key).1 (writeFieldMethod f.key).2) ++
          [WriteBranch.defaultBranch false 0] := by
      unfold writeDispatch
      rw [if_pos ⟨rfl, List.cons_ne_nil f0 rest⟩, List.reverse_cons, List.map_append]
      rw [List.map_congr_left (fun f hf => by
        unfold resultBranch
        rw [if_pos (hrest f (List.mem_reverse.mp hf))])]
      rw [List.map_cons, List.map_nil, hd]
    refine ⟨hwd, ?_⟩
    rw [hwd]
    unfold switchFired firedResultBranch
    rw [List.find?_append, List.find?_map]
    have hpred : (isCaseGuardLive isNil ∘ fun (f : GoField) =>
        WriteBranch.caseNil (publicize (variable_name_to_go_name f.name))
          (writeFieldMethod f.key).1 (writeFieldMethod f.key).2) =
        (fun (f : GoField) => !(isNil (publicize (variable_name_to_go_name f.name)))) := rfl
    rw [hpred]
    have hnone : List.find? (isCaseGuardLive isNil)
        [WriteBranch.defaultBranch false 0] = none := rfl
    rw [hnone]
    rcases hfind : rest.reverse.find?
        (fun (f : GoField) => !(isNil (publicize (variable_name_to_go_name f.name)))) with _ | f
    · have hnd : List.find? isDefaultB
          (rest.reverse.map (fun (f : GoField) =>
            WriteBranch.caseNil (publicize (variable_name_to_go_name f.name))
              (writeFieldMethod f.key).1 (writeFieldMethod f.key).2)) = none := by
        apply List.find?_eq_none.mpr
        intro b hb
        obtain ⟨g, -, rfl⟩ := List.mem_map.mp hb
        simp [isDefaultB]
      simp only [Option.map_none, Option.none_or]
      rw [List.find?_append, hnd]
      rfl
    · rfl

/-- The synthesized success field (key 0) of a non-void function's Result
record (t_go_generator.cc lines 1434-1439). -/
def successField : GoField := ⟨sLit "success", 0, .tI64, .t_opt_in_req_out, false⟩

/-- A declared exception field (key 1, exception type) of a Result record. -/
def exOnlyField : GoField := ⟨sLit "ouch", 1, .tXception, .t_opt_in_req_out, false⟩

/-- The nil-ness environment in which every field reads as nil (no
exception is set, the success pointer is nil). -/
def allFieldsNil : List Nat → Bool := fun _ => true

/-- Witness for C2 at the Result record `{success: key 0, ouch: key 1}` with
every field nil: the success field's `default:` branch fires. -/
theorem C2_struct_writer_witness :
    successField.key = 0 ∧
    switchFired (writeDispatch true (successField :: [exOnlyField]))
        allFieldsNil = some (WriteBranch.defaultBranch false 0) :=
  ⟨rfl, by
    have h := (C2_struct_writer.2.2 successField [exOnlyField] allFieldsNil rfl
      (by decide)).2
    rw [h]
    rfl⟩

/-- C2 counterexample: the synthesized Result record of a void function
with one declared exception has one field (key 1, exception type), so the
claim applies, but its switch consists of a single nil-guarded `case` and
has no `default:` branch at all - no remaining field is written
unconditionally, and when the exception is nil no branch fires. -/
theorem C2_counterexample :
    writeDispatch true [exOnlyField] =
      [WriteBranch.caseNil (sLit "Ouch") false 1] ∧
    (writeDispatch true [exOnlyField]).filter isDefaultB = [] ∧
    switchFired (writeDispatch true [exOnlyField]) allFieldsNil = none :=
  ⟨by decide, by decide, by decide⟩

/-- The statements of the public client method body emitted by
`generate_service_client` for one function (t_go_generator.cc lines
1610-1648). -/
inductive ClientStmt where
  | callSend
  | callRecv
  | returnStmt
deriving DecidableEq

/-- Model of the public client method body (t_go_generator.cc lines
1622-1644): `if err = p.send<Name>(args); err != nil { return }` always;
then `return p.recv<Name>()` when the function is not one-way, and a bare
`return` when it is. -/
def clientMethodBody (oneway : Bool) : List ClientStmt :=
  [.callSend] ++ (if oneway then [.returnStmt] else [.callRecv])

/-- The statements of the `Process` routine emitted by
`generate_process_function` (t_go_generator.cc lines 2296-2426), in
emission order.  The reply block (message begin with `thrift.REPLY`, result
struct write, message end, flush: lines 2408-2419) is emitted
unconditionally - the only use of `is_oneway()` in this routine (line 2360)
controls how many `result.<Field>, ` assignment targets prefix the handler
call. -/
inductive ProcStmt where
  | readArgsWithProtocolErrorReply
  | readMessageEnd
  | preHandleHook
  | newResult
  | recoverFaultToCallbackError
  | callHandler (numResultAssigns : Nat)
  | postHandleHook
  | internalErrorReplyOnFault
  | writeReplyMessageBegin
  | writeResultStruct
  | writeReplyMessageEnd
  | flushReply
  | returnSuccess
deriving DecidableEq

/-- The number of `result.<Field>` assignment targets built into
`result_args` (t_go_generator.cc lines 2360-2371): none for a one-way
function; otherwise one for the success value when the return type is not
void, plus one per declared exception. -/
def resultAssignCount (oneway retVoid : Bool) (numExceptions : Nat) : Nat :=
  if oneway then 0
  else (if retVoid then 0 else 1) + numExceptions

/-- Model of the `Process` routine body emitted by
`generate_process_function` (t_go_generator.cc lines 2311-2426), one
abstract statement per emitted block, in emission order. -/
def processBody (oneway retVoid : Bool) (numExceptions : Nat) : List ProcStmt :=
  [.readArgsWithProtocolErrorReply,
   .readMessageEnd,
   .preHandleHook,
   .newResult,
   .recoverFaultToCallbackError,
   .callHandler (resultAssignCount oneway retVoid numExceptions),
   .postHandleHook,
   .internalErrorReplyOnFault,
   .writeReplyMessageBegin,
   .writeResultStruct,
   .writeReplyMessageEnd,
   .flushReply,
   .returnSuccess]

/-- C1 (amended): the generated public client method of a one-way function
calls `send<Name>` and never `recv<Name>` (and of a two-way function calls
both); the server-side `Process` routine always invokes the handler, but -
contrary to the claim - it writes the reply envelope (REPLY message begin,
result struct write, message end, flush) for one-way functions as well,
since the reply block is emitted unconditionally. -/
theorem C1_oneway (oneway retVoid : Bool) (numExceptions : Nat) :
    (ClientStmt.callSend ∈ clientMethodBody oneway) ∧
    ((ClientStmt.callRecv ∈ clientMethodBody oneway) ↔ oneway = false) ∧
    (ProcStmt.callHandler (resultAssignCount oneway retVoid numExceptions) ∈
      processBody oneway retVoid numExceptions) ∧
    (ProcStmt.writeReplyMessageBegin ∈ processBody oneway retVoid numExceptions) ∧
    (ProcStmt.writeResultStruct ∈ processBody oneway retVoid numExceptions) ∧
    (ProcStmt.writeReplyMessageEnd ∈ processBody oneway retVoid numExceptions) ∧
    (ProcStmt.flushReply ∈ processBody oneway retVoid numExceptions) := by
  refine ⟨?_, ?_, ?_, ?_, ?_, ?_, ?_⟩ <;>
    cases oneway <;>
    simp [clientMethodBody, processBody]

/-- C1 counterexample: for a one-way function (here with void return and no
exceptions) the client method indeed never calls `recv`, but the `Process`
routine still emits the full reply envelope - REPLY message begin, result
struct write, message end and flush - so the server side of the claim is
false. -/
theorem C1_counterexample :
    ClientStmt.callRecv ∉ clientMethodBody true ∧
    ClientStmt.callSend ∈ clientMethodBody true ∧
    ProcStmt.writeReplyMessageBegin ∈ processBody true true 0 ∧
    ProcStmt.writeResultStruct ∈ processBody true true 0 ∧
    ProcStmt.writeReplyMessageEnd ∈ processBody true true 0 ∧
    ProcStmt.flushReply ∈ processBody true true 0 :=
  ⟨by decide, by decide, by decide, by decide, by decide, by decide⟩
